import Mathlib

/-!
Verification of the device resource pool and asynchronous execution engine of
`src/accelerator/vulkan/util/device.cpp` (CasparCG vulkan accelerator).

The development shallowly embeds `device::impl`: the pool tables
(`device_pools_`, `host_pools_`), texture/buffer acquisition
(`create_texture`, `create_buffer`), the pooled-handle deleters, garbage
collection (`gc`), the upload path (`copy_async(array, ...)`) and the
download fence-poll loop (`copy_async(texture)`).

Machine integers are modelled as `Int`/`Nat` with explicit `% 2^32` where
32-bit wraparound matters (the packed size key).  The tbb concurrent queues
are modelled as FIFO lists; each pool table is flattened to an association
list of (key, resource id) pairs, where the per-key FIFO queue is the
subsequence of entries carrying that key.  Resources are identified by ids
drawn from a monotone counter (standing for object addresses, which are
distinct for simultaneously live objects).
-/

namespace CasparVulkan

/-- The `common::bit_depth` values distinguished by `create_texture`
(`depth == common::bit_depth::bit8 ? 0 : 1`). -/
inductive BitDepth where
  | bit8
  | bit16
deriving DecidableEq

/-- `depth_pool_index` from `create_texture`: `depth == bit8 ? 0 : 1`. -/
def depthPoolIndex : BitDepth → Nat
  | .bit8 => 0
  | .bit16 => 1

/-- The packed size key of `create_texture`:
`(width << 16 & 0xFFFF0000) | (height & 0x0000FFFF)` computed in 32-bit
arithmetic (the shift wraps at `2^32`). -/
def packSizeKey (w h : Nat) : Nat :=
  (((w <<< 16) % 2 ^ 32) &&& 0xFFFF0000) ||| (h &&& 0xFFFF)

/-- Full index of a device (texture) pool queue:
`device_pools_[depth_pool_index][stride - 1][packed size key]`. -/
structure TexKey where
  depthIdx : Nat
  strideIdx : Nat
  sizeKey : Nat
deriving DecidableEq

/-- Index of a host (buffer) pool queue: `host_pools_[write ? 1 : 0][size]`. -/
structure BufKey where
  write : Bool
  size : Nat
deriving DecidableEq

/-- The pool queue a texture request maps to
(`device_pools_[depth == bit8 ? 0 : 1][stride - 1][(width << 16 & 0xFFFF0000) | (height & 0x0000FFFF)]`). -/
def texPoolKeyOf (width height stride : Int) (depth : BitDepth) : TexKey :=
  ⟨depthPoolIndex depth, (stride - 1).toNat, packSizeKey width.toNat height.toNat⟩

/-- Modelled from the spec: the `texture` class is missing from the embedded
sources (`texture.cpp`/`texture.h`), so its observable attributes follow the
spec — the shape it was allocated with, its current logical depth ("Apply
requested bit depth to the resource", mutable via `set_depth`) and an
abstract summary of its pixel content ("If `clear` requested, zero the
resource's content"), with `0` standing for the all-zero (cleared)
content. -/
structure TexInfo where
  width : Nat
  height : Nat
  stride : Nat
  depthIdx : Nat
  content : Nat
deriving DecidableEq

instance : Inhabited TexInfo := ⟨⟨0, 0, 0, 0, 0⟩⟩

/-- Modelled from the spec: the `buffer` class is missing from the embedded
sources (`buffer.cpp`/`buffer.h`), so its observable attributes follow the
spec — "Attributes: size in bytes, direction flag (write/upload vs.
read/download), opaque host-mapped pointer", fixed at construction — plus an
abstract content summary for the mapped memory. -/
structure BufInfo where
  size : Nat
  write : Bool
  content : Nat
deriving DecidableEq

instance : Inhabited BufInfo := ⟨⟨0, false, 0⟩⟩

/-- The pool key the buffer deleter recomputes at release time:
`host_pools_[buf->write() ? 1 : 0][buf->size()]`. -/
def bufKeyOf (info : BufInfo) : BufKey := ⟨info.write, info.size⟩

/-- `try_pop` on the FIFO queue for key `k` inside a flattened pool table:
removes and returns the first (oldest) entry carrying `k`, if any. -/
def popKey {κ : Type} [DecidableEq κ] (k : κ) : List (κ × Nat) → Option (Nat × List (κ × Nat))
  | [] => none
  | e :: rest =>
    if e.1 = k then some (e.2, rest)
    else
      match popKey k rest with
      | none => none
      | some (r, rest') => some (r, e :: rest')

/-- The idle queue for key `k` inside a flattened pool table. -/
def queueOf {κ : Type} [DecidableEq κ] (k : κ) (pool : List (κ × Nat)) : List Nat :=
  (pool.filter fun e => decide (e.1 = k)).map Prod.snd

/-- Remove the first occurrence of `a` (the destruction of one particular
live handle). -/
def eraseOnce {α : Type} [DecidableEq α] (a : α) : List α → List α
  | [] => []
  | x :: xs => if x = a then xs else x :: eraseOnce a xs

/-- State of one `device::impl`: the flattened device and host pool tables,
the currently checked-out handles (texture handles with the pool key their
deleter captured; buffer handles, whose deleter captures no key), the
attribute maps of all resources ever allocated and the fresh-id counter. -/
structure DevState where
  texPool : List (TexKey × Nat)
  bufPool : List (BufKey × Nat)
  texOut : List (Nat × TexKey)
  bufOut : List Nat
  texInfo : Nat → TexInfo
  bufInfo : Nat → BufInfo
  nextId : Nat

/-- Pool tables are created empty at device construction. -/
def initState : DevState :=
  ⟨[], [], [], [], fun _ => default, fun _ => default, 0⟩

/-- `device::impl::create_texture(width, height, stride, depth, clear)`.
Returns `none` when a `CASPAR_VERIFY` precondition fails, otherwise
`some (id, alloc, s')` where `alloc` is true iff the pool missed and the
allocation path ran.  `freshContent` stands for the undefined initial content
of a freshly created image (the in-source clear submission is commented out).
The returned handle's deleter captures the pool queue computed from the
request (`pool->push(tex)` with `pool` bound at creation), recorded in
`texOut`. -/
def createTextureImpl (width height stride : Int) (depth : BitDepth) (clear : Bool)
    (freshContent : Nat) (s : DevState) : Option (Nat × Bool × DevState) :=
  if ¬(stride > 0 ∧ stride < 5) then none
  else if ¬(width > 0 ∧ height > 0) then none
  else
    let key := texPoolKeyOf width height stride depth
    match popKey key s.texPool with
    | some (id, pool') =>
      let info0 := s.texInfo id
      let info1 := { info0 with depthIdx := depthPoolIndex depth }
      let info2 := if clear then { info1 with content := 0 } else info1
      some (id, false,
        { s with
          texPool := pool'
          texOut := (id, key) :: s.texOut
          texInfo := fun i => if i = id then info2 else s.texInfo i })
    | none =>
      let id := s.nextId
      let info0 : TexInfo :=
        ⟨width.toNat, height.toNat, stride.toNat, depthPoolIndex depth, freshContent⟩
      let info1 := { info0 with depthIdx := depthPoolIndex depth }
      let info2 := if clear then { info1 with content := 0 } else info1
      some (id, true,
        { s with
          texOut := (id, key) :: s.texOut
          texInfo := fun i => if i = id then info2 else s.texInfo i
          nextId := s.nextId + 1 })

/-- Release of a pooled texture handle: the deleter
`[tex, pool, self](texture*) { pool->push(tex); }` pushes the texture onto
the queue `pool` captured at creation/acquisition time (`k` here), reading
nothing from the texture's current state. -/
def releaseTexture (id : Nat) (k : TexKey) (s : DevState) : DevState :=
  { s with
    texPool := s.texPool ++ [(k, id)]
    texOut := eraseOnce (id, k) s.texOut }

/-- `device::impl::create_buffer(size, write)`.  Returns `none` when
`CASPAR_VERIFY(size > 0)` fails, otherwise `some (id, alloc, s')` with
`alloc` true iff the pool missed. -/
def createBufferImpl (size : Int) (write : Bool) (s : DevState) : Option (Nat × Bool × DevState) :=
  if ¬size > 0 then none
  else
    let key : BufKey := ⟨write, size.toNat⟩
    match popKey key s.bufPool with
    | some (id, pool') =>
      some (id, false, { s with bufPool := pool', bufOut := id :: s.bufOut })
    | none =>
      let id := s.nextId
      some (id, true,
        { s with
          bufOut := id :: s.bufOut
          bufInfo := fun i => if i = id then ⟨size.toNat, write, (s.bufInfo i).content⟩ else s.bufInfo i
          nextId := s.nextId + 1 })

/-- Release of a pooled buffer handle: the deleter recomputes the target
queue from the buffer's current state,
`self->host_pools_[buf->write() ? 1 : 0][buf->size()]`, and pushes the
buffer there. -/
def releaseBuffer (id : Nat) (s : DevState) : DevState :=
  { s with
    bufPool := s.bufPool ++ [(bufKeyOf (s.bufInfo id), id)]
    bufOut := eraseOnce id s.bufOut }

/-- Content write to a texture (`tex->copy_from(*buf)` or a render pass):
changes only the content summary of that texture. -/
def setTexContent (id v : Nat) (s : DevState) : DevState :=
  { s with
    texInfo := fun i => if i = id then { s.texInfo i with content := v } else s.texInfo i }

/-- Content write to a buffer's mapped memory (a `std::memcpy` into the
mapped block, or a device-side image-to-buffer copy): changes only the
content summary. -/
def setBufContent (id v : Nat) (s : DevState) : DevState :=
  { s with
    bufInfo := fun i => if i = id then { s.bufInfo i with content := v } else s.bufInfo i }

/-- Sequential teardown of pooled entries during `gc()`.  `fails id = true`
means destroying resource `id` throws.  The single `try { ... } catch (...)`
wrapped around the whole clearing loop means the first throwing entry aborts
the traversal: the result is `(aborted, remaining entries)`. -/
def clearEntries {κ : Type} (fails : Nat → Bool) : List (κ × Nat) → Bool × List (κ × Nat)
  | [] => (false, [])
  | e :: rest => if fails e.2 then (true, rest) else clearEntries fails rest

/-- `device::impl::gc()`: clears every device pool queue, then every host
pool queue, inside one `try`/`catch` that logs and swallows the first
exception.  A throw while clearing the device pools leaves the host pools
untouched; a throw while clearing the host pools leaves the remaining host
entries pooled.  Checked-out resources are never visited. -/
def gcStep (fails : Nat → Bool) (s : DevState) : DevState :=
  match clearEntries fails s.texPool with
  | (true, texRem) => { s with texPool := texRem }
  | (false, _) =>
    match clearEntries fails s.bufPool with
    | (true, bufRem) => { s with texPool := [], bufPool := bufRem }
    | (false, _) => { s with texPool := [], bufPool := [] }

/-- Modelled from the spec: the `array` byte-view class is missing from the
embedded sources (`common/array.h`) — "a byte-range/view abstraction with
attachable typed-storage metadata".  The view carries its byte size, an
abstract content summary, and the typed storage handle
(`source.storage<std::shared_ptr<buffer>>()`): `some b` when the view is
backed by pooled buffer `b`. -/
structure SourceView where
  size : Int
  content : Nat
  storage : Option Nat

/-- Events the upload path can issue, in program order. -/
inductive UpEvent where
  | createBuffer (size : Int) (write : Bool)
  | memcpy (bytes : Nat)
  | createTexture (width height stride : Int) (clear : Bool)
  | copyBufferToImage (bufId texId : Nat)
deriving DecidableEq

/-- `device::impl::copy_async(source, width, height, stride, depth)` (the
body of the dispatched task).  Fast path: a typed storage handle on the
source reuses that pooled buffer with no byte copy.  Slow path: a
write-direction staging buffer of exactly `source.size()` is acquired and
the source bytes are copied into it.  Either way the destination texture is
then acquired with `clear = false` and a buffer-to-image copy is issued.
Returns `some (bufId, texId, events, s')`. -/
def copyAsyncUpload (source : SourceView) (width height stride : Int) (depth : BitDepth)
    (freshContent : Nat) (s : DevState) : Option (Nat × Nat × List UpEvent × DevState) :=
  match source.storage with
  | some b =>
    match createTextureImpl width height stride depth false freshContent s with
    | none => none
    | some (tex, _, s1) =>
      some (b, tex,
        [UpEvent.createTexture width height stride false, UpEvent.copyBufferToImage b tex],
        setTexContent tex ((s1.bufInfo b).content) s1)
  | none =>
    match createBufferImpl source.size true s with
    | none => none
    | some (b, _, s1) =>
      let s2 := setBufContent b source.content s1
      match createTextureImpl width height stride depth false freshContent s2 with
      | none => none
      | some (tex, _, s3) =>
        some (b, tex,
          [UpEvent.createBuffer source.size true, UpEvent.memcpy source.size.toNat,
           UpEvent.createTexture width height stride false, UpEvent.copyBufferToImage b tex],
          setTexContent tex ((s3.bufInfo b).content) s3)

/-- Events of one iteration of the download poll loop and its epilogue. -/
inductive PollEvent where
  | armTimer (ms : Nat)
  | suspend
  | checkFence
  | destroyFence
deriving DecidableEq

/-- One iteration of the fence poll loop:
`timer.expires_from_now(milliseconds(2)); timer.async_wait(yield);`
then `_device.waitForFences(fence, VK_TRUE, 0)`. -/
def pollIterTrace : List PollEvent := [.armTimer 2, .suspend, .checkFence]

/-- Event trace of a poll loop that succeeds on check number `k`
(iterations `0..k`), followed by `_device.destroyFence(fence)`. -/
def pollTrace (k : Nat) : List PollEvent :=
  (List.replicate (k + 1) pollIterTrace).flatten ++ [.destroyFence]

/-- The fence poll loop `for (auto n = 0; true; ++n) { ...; if (signaled) break; }`
with explicit fuel: `signaled n` tells whether the fence test on iteration
`n` observes the signaled state.  Returns the iteration on which the loop
breaks, or `none` if the fuel runs out first (the source loop has no bound
at all). -/
def pollAux (signaled : Nat → Bool) : Nat → Nat → Option Nat
  | _, 0 => none
  | n, fuel + 1 => if signaled n then some n else pollAux signaled (n + 1) fuel

/-- Result of a completed download: the staging buffer whose ownership moved
into the returned view, the view's byte size, the number of the iteration on
which the fence test succeeded, and the poll-loop event trace. -/
structure DownloadResult where
  bufId : Nat
  size : Nat
  iterations : Nat
  trace : List PollEvent
deriving DecidableEq

/-- `device::impl::copy_async(source)` (the body of the spawned task):
acquire a read-direction staging buffer sized `source->size()`, issue the
image-to-buffer copy guarded by a fresh fence (the device eventually
deposits the texture content in the buffer, modelled by `setBufContent`),
then poll the fence.  Outer `none`: `CASPAR_VERIFY` failure in
`create_buffer`.  Inner `none`: the fence never signaled within `fuel`
polls — the loop is still running and no view is produced.  On success the
view takes ownership of the staging buffer
(`array<const uint8_t>(ptr, size, std::move(buf))`), so the buffer stays
checked out. -/
def copyAsyncDownload (signaled : Nat → Bool) (fuel : Nat) (srcSize : Int) (srcContent : Nat)
    (s : DevState) : Option (Option DownloadResult × DevState) :=
  match createBufferImpl srcSize false s with
  | none => none
  | some (b, _, s1) =>
    let s2 := setBufContent b srcContent s1
    match pollAux signaled 0 fuel with
    | none => some (none, s2)
    | some k => some (some ⟨b, (s2.bufInfo b).size, k, pollTrace k⟩, s2)

/-- The public `device::create_texture(width, height, stride, depth)`:
`return impl_->create_texture(width, height, stride, depth, true);` —
`clear` is always `true` on this path. -/
def deviceCreateTexture (width height stride : Int) (depth : BitDepth) (freshContent : Nat)
    (s : DevState) : Option (Nat × Bool × DevState) :=
  createTextureImpl width height stride depth true freshContent s

/-- `device::impl::create_array(size)`: acquire a write buffer and wrap it in
a view that carries the pooled buffer as its typed storage
(`array<uint8_t>(ptr, buf->size(), std::move(buf))`). -/
def createArrayImpl (size : Int) (s : DevState) : Option (SourceView × DevState) :=
  match createBufferImpl size true s with
  | none => none
  | some (b, _, s1) => some (⟨size, (s1.bufInfo b).content, some b⟩, s1)

/-- One observable transition of a `device::impl`: an acquisition, a
pooled-handle release (possible from any thread holding the last reference),
a GC pass, or a content write to an existing resource. -/
inductive Step : DevState → DevState → Prop where
  | createTex {w h stride : Int} {d : BitDepth} {c : Bool} {f id : Nat} {alloc : Bool}
      {s s' : DevState} :
      createTextureImpl w h stride d c f s = some (id, alloc, s') → Step s s'
  | createBuf {size : Int} {write : Bool} {id : Nat} {alloc : Bool} {s s' : DevState} :
      createBufferImpl size write s = some (id, alloc, s') → Step s s'
  | releaseTex {id : Nat} {k : TexKey} {s : DevState} :
      (id, k) ∈ s.texOut → Step s (releaseTexture id k s)
  | releaseBuf {id : Nat} {s : DevState} :
      id ∈ s.bufOut → Step s (releaseBuffer id s)
  | gcRun (fails : Nat → Bool) {s : DevState} : Step s (gcStep fails s)
  | writeTex (id v : Nat) {s : DevState} : Step s (setTexContent id v s)
  | writeBuf (id v : Nat) {s : DevState} : Step s (setBufContent id v s)

/-- States reachable from a freshly constructed device. -/
def Reachable (s : DevState) : Prop := Relation.ReflTransGen Step initState s

/-- Every pooled or checked-out resource id, with multiplicity. -/
def allIds (s : DevState) : List Nat :=
  s.texPool.map Prod.snd ++ s.texOut.map Prod.fst ++ s.bufPool.map Prod.snd ++ s.bufOut

/-- The pool/ownership invariant: no resource id occurs twice across the
pool queues and the checked-out handles, all ids are below the allocation
counter, and every pooled buffer entry sits in the queue matching its own
(write, size) attributes. -/
def Inv (s : DevState) : Prop :=
  (allIds s).Nodup ∧
    (∀ id ∈ allIds s, id < s.nextId) ∧
      ∀ e ∈ s.bufPool, bufKeyOf (s.bufInfo e.2) = e.1

/-! Concrete scenario states used by witnesses and counterexamples. -/

/-- Pool key of a 16-by-16, stride-1, 8-bit texture request. -/
def key16 : TexKey := texPoolKeyOf 16 16 1 BitDepth.bit8

/-- State after allocating one 16-by-16 texture with stale content 7
(internal path, no clear). -/
def sTexA : DevState :=
  match createTextureImpl 16 16 1 BitDepth.bit8 false 7 initState with
  | some (_, _, t) => t
  | none => initState

/-- The 16-by-16 texture released back to its pool, stale content intact. -/
def sTexB : DevState := releaseTexture 0 key16 sTexA

/-- State after re-acquiring the 16-by-16 shape through the public
always-clear API (pool hit). -/
def sTexC : DevState :=
  match deviceCreateTexture 16 16 1 BitDepth.bit8 5 sTexB with
  | some (_, _, t) => t
  | none => initState

/-- State after allocating one 1024-byte write buffer. -/
def sBuf1 : DevState :=
  match createBufferImpl 1024 true initState with
  | some (_, _, t) => t
  | none => initState

/-- Pool key of a 65537-wide, 1-high, stride-1, 8-bit texture request. -/
def keyWide : TexKey := texPoolKeyOf 65537 1 1 BitDepth.bit8

/-- State after allocating a 65537-by-1 texture (dimensions beyond 16 bits). -/
def sWideA : DevState :=
  match createTextureImpl 65537 1 1 BitDepth.bit8 false 9 initState with
  | some (_, _, t) => t
  | none => initState

/-- The 65537-by-1 texture released back to its pool. -/
def sWideB : DevState := releaseTexture 0 keyWide sWideA

/-- State after requesting a 1-by-1 texture against the pool holding the
65537-by-1 texture. -/
def sWideC : DevState :=
  match createTextureImpl 1 1 1 BitDepth.bit8 false 0 sWideB with
  | some (_, _, t) => t
  | none => initState

/-- Pool key of a 2-by-2, stride-1, 8-bit texture request. -/
def key2 : TexKey := texPoolKeyOf 2 2 1 BitDepth.bit8

/-- State after allocating two 2-by-2 textures. -/
def sGcB : DevState :=
  match createTextureImpl 2 2 1 BitDepth.bit8 false 0 initState with
  | some (_, _, t) =>
    match createTextureImpl 2 2 1 BitDepth.bit8 false 0 t with
    | some (_, _, t2) => t2
    | none => initState
  | none => initState

/-- Both 2-by-2 textures released: the pool queue holds ids 0 then 1. -/
def sGcC : DevState := releaseTexture 1 key2 (releaseTexture 0 key2 sGcB)

/-- A teardown-failure oracle: destroying resource 0 throws, the rest do not. -/
def gcFails : Nat → Bool := fun i => i == 0

/-- Upload source already backed by pooled buffer 5 (typed storage handle). -/
def upSrcFast : SourceView := ⟨1024, 42, some 5⟩

/-- Upload source without storage handle (plain caller memory). -/
def upSrcSlow : SourceView := ⟨1024, 42, none⟩

/-- Final state of the fast-path upload scenario. -/
def sUpFast : DevState :=
  match copyAsyncUpload upSrcFast 16 16 1 BitDepth.bit8 3 initState with
  | some (_, _, _, t) => t
  | none => initState

/-- Final state of the slow-path upload scenario. -/
def sUpSlow : DevState :=
  match copyAsyncUpload upSrcSlow 16 16 1 BitDepth.bit8 3 initState with
  | some (_, _, _, t) => t
  | none => initState

/-- A fence oracle that signals on the second test (check number 1). -/
def dlSig : Nat → Bool := fun n => n == 1

section PoolLemmas

variable {κ : Type} [DecidableEq κ]

theorem popKey_perm {k : κ} {l l' : List (κ × Nat)} {id : Nat}
    (h : popKey k l = some (id, l')) : l.Perm ((k, id) :: l') := by
  induction l generalizing l' with
  | nil => simp [popKey] at h
  | cons e rest ih =>
    by_cases he : e.1 = k
    · simp only [popKey, if_pos he, Option.some.injEq, Prod.mk.injEq] at h
      obtain ⟨h1, h2⟩ := h
      have : e = (k, id) := by
        obtain ⟨e1, e2⟩ := e
        simp only at he h1
        simp [he, h1]
      rw [this, h2]
    · simp only [popKey, if_neg he] at h
      cases hrest : popKey k rest with
      | none => rw [hrest] at h; exact absurd h (by simp)
      | some p =>
        obtain ⟨r, rest'⟩ := p
        rw [hrest] at h
        simp only [Option.some.injEq, Prod.mk.injEq] at h
        obtain ⟨h1, h2⟩ := h
        subst h1
        subst h2
        exact ((ih hrest).cons e).trans (List.Perm.swap _ _ _)

theorem popKey_mem {k : κ} {l l' : List (κ × Nat)} {id : Nat}
    (h : popKey k l = some (id, l')) : (k, id) ∈ l :=
  (popKey_perm h).mem_iff.mpr (List.mem_cons_self _ _)

theorem popKey_rest_subset {k : κ} {l l' : List (κ × Nat)} {id : Nat}
    (h : popKey k l = some (id, l')) : ∀ e ∈ l', e ∈ l := by
  intro e he
  exact (popKey_perm h).mem_iff.mpr (List.mem_cons_of_mem _ he)

theorem popKey_eq_none_iff {k : κ} {l : List (κ × Nat)} :
    popKey k l = none ↔ queueOf k l = [] := by
  induction l with
  | nil => simp [popKey, queueOf]
  | cons e rest ih =>
    by_cases he : e.1 = k
    · simp [popKey, queueOf, he]
    · have hq : queueOf k (e :: rest) = queueOf k rest := by
        simp [queueOf, List.filter_cons, he]
      rw [hq, ← ih]
      simp only [popKey, if_neg he]
      cases hrest : popKey k rest <;> simp

theorem popKey_append_single {k : κ} {l : List (κ × Nat)} {id : Nat}
    (h : popKey k l = none) : popKey k (l ++ [(k, id)]) = some (id, l) := by
  induction l with
  | nil => simp [popKey]
  | cons e rest ih =>
    by_cases he : e.1 = k
    · simp [popKey, he] at h
    · rw [List.cons_append]
      simp only [popKey, if_neg he] at h ⊢
      cases hrest : popKey k rest with
      | none => rw [ih hrest]
      | some p => rw [hrest] at h; exact absurd h (by simp)

theorem perm_cons_eraseOnce {α : Type} [DecidableEq α] {a : α} {l : List α} (h : a ∈ l) :
    l.Perm (a :: eraseOnce a l) := by
  induction l with
  | nil => cases h
  | cons x xs ih =>
    by_cases hx : x = a
    · subst hx
      simp [eraseOnce]
    · have hmem : a ∈ xs := by
        rcases List.mem_cons.mp h with h1 | h1
        · exact absurd h1.symm hx
        · exact h1
      simp only [eraseOnce, if_neg hx]
      exact ((ih hmem).cons x).trans (List.Perm.swap _ _ _)

end PoolLemmas

section ClearLemmas

variable {κ : Type}

theorem clearEntries_noFail (l : List (κ × Nat)) :
    clearEntries (fun _ => false) l = (false, []) := by
  induction l with
  | nil => rfl
  | cons e rest ih => simp [clearEntries, ih]

theorem clearEntries_rest_sublist (fails : Nat → Bool) (l : List (κ × Nat)) :
    (clearEntries fails l).2.Sublist l := by
  induction l with
  | nil => simp [clearEntries]
  | cons e rest ih =>
    by_cases hf : fails e.2
    · simp [clearEntries, hf]
    · simp only [clearEntries, hf, if_false, Bool.false_eq_true]
      exact ih.trans (List.sublist_cons_self e rest)

end ClearLemmas

section KeyLemmas

theorem shiftLeft_and_mask_hi {x : Nat} (hx : x < 2 ^ 16) :
    (x <<< 16) &&& 0xFFFF0000 = x <<< 16 := by
  have h0 : (0xFFFF0000 : Nat) = (2 ^ 16 - 1) <<< 16 := by decide
  apply Nat.eq_of_testBit_eq
  intro i
  rw [Nat.testBit_and, h0, Nat.testBit_shiftLeft, Nat.testBit_shiftLeft,
    Nat.testBit_two_pow_sub_one]
  by_cases h16 : 16 ≤ i
  · by_cases h32 : i - 16 < 16
    · simp [h16, h32]
    · have : x.testBit (i - 16) = false :=
        Nat.testBit_eq_false_of_lt
          (lt_of_lt_of_le hx (Nat.pow_le_pow_right (by norm_num) (by omega)))
      simp [this]
  · simp [h16]

/-- Arithmetic form of the packed size key: the low 16 bits of the width in
the high half, the low 16 bits of the height in the low half. -/
theorem packSizeKey_eq (w h : Nat) :
    packSizeKey w h = w % 2 ^ 16 * 2 ^ 16 + h % 2 ^ 16 := by
  unfold packSizeKey
  have e1 : h &&& 0xFFFF = h % 2 ^ 16 := by
    have := Nat.and_pow_two_sub_one_eq_mod h 16
    norm_num at this ⊢
    omega
  have e2 : (w <<< 16) % 2 ^ 32 = (w % 2 ^ 16) <<< 16 := by
    rw [Nat.shiftLeft_eq, Nat.shiftLeft_eq]
    have h32 : (2 : Nat) ^ 32 = 2 ^ 16 * 2 ^ 16 := by norm_num
    rw [h32, Nat.mul_mod_mul_right]
  have hx : w % 2 ^ 16 < 2 ^ 16 := Nat.mod_lt _ (by norm_num)
  have hy : h % 2 ^ 16 < 2 ^ 16 := Nat.mod_lt _ (by norm_num)
  rw [e1, e2, shiftLeft_and_mask_hi hx, Nat.shiftLeft_eq, mul_comm (w % 2 ^ 16),
    ← Nat.mul_add_lt_is_or hy, mul_comm]

/-- The packed size key is injective on dimensions that fit in 16 bits. -/
theorem packSizeKey_inj {w1 h1 w2 h2 : Nat}
    (hw1 : w1 < 2 ^ 16) (hh1 : h1 < 2 ^ 16) (hw2 : w2 < 2 ^ 16) (hh2 : h2 < 2 ^ 16)
    (h : packSizeKey w1 h1 = packSizeKey w2 h2) : w1 = w2 ∧ h1 = h2 := by
  rw [packSizeKey_eq, packSizeKey_eq, Nat.mod_eq_of_lt hw1, Nat.mod_eq_of_lt hh1,
    Nat.mod_eq_of_lt hw2, Nat.mod_eq_of_lt hh2] at h
  omega

end KeyLemmas

section StateLemmas

/-- Unfolding of a successful `create_texture` call: host state is untouched,
the new handle is checked out with the request's pool key captured, and the
call either popped the pool (no allocation) or allocated a fresh resource
(pool miss). -/
theorem createTextureImpl_spec {w h stride : Int} {d : BitDepth} {c : Bool} {f id : Nat}
    {alloc : Bool} {s s' : DevState}
    (hc : createTextureImpl w h stride d c f s = some (id, alloc, s')) :
    s'.bufPool = s.bufPool ∧ s'.bufOut = s.bufOut ∧ s'.bufInfo = s.bufInfo ∧
      s'.texOut = (id, texPoolKeyOf w h stride d) :: s.texOut ∧
      ((alloc = false ∧ s'.nextId = s.nextId ∧
          popKey (texPoolKeyOf w h stride d) s.texPool = some (id, s'.texPool)) ∨
        (alloc = true ∧ id = s.nextId ∧ s'.nextId = s.nextId + 1 ∧
          s'.texPool = s.texPool ∧
          popKey (texPoolKeyOf w h stride d) s.texPool = none)) := by
  simp only [createTextureImpl] at hc
  split at hc
  · exact absurd hc (by simp)
  split at hc
  · exact absurd hc (by simp)
  cases hp : popKey (texPoolKeyOf w h stride d) s.texPool with
  | some p =>
    obtain ⟨pid, pool'⟩ := p
    rw [hp] at hc
    simp only [Option.some.injEq, Prod.mk.injEq] at hc
    obtain ⟨h1, h2, h3⟩ := hc
    subst h1
    subst h2
    subst h3
    exact ⟨rfl, rfl, rfl, rfl, Or.inl ⟨rfl, rfl, rfl⟩⟩
  | none =>
    rw [hp] at hc
    simp only [Option.some.injEq, Prod.mk.injEq] at hc
    obtain ⟨h1, h2, h3⟩ := hc
    subst h1
    subst h2
    subst h3
    exact ⟨rfl, rfl, rfl, rfl, Or.inr ⟨rfl, rfl, rfl, rfl, rfl⟩⟩

/-- Content of the texture handed out by a successful `create_texture`:
cleared when `clear` was requested, otherwise the previous occupant's stale
content (pool hit) or the undefined fresh-image content (pool miss); the
requested depth is applied either way. -/
theorem createTextureImpl_content {w h stride : Int} {d : BitDepth} {c : Bool} {f id : Nat}
    {alloc : Bool} {s s' : DevState}
    (hc : createTextureImpl w h stride d c f s = some (id, alloc, s')) :
    (s'.texInfo id).depthIdx = depthPoolIndex d ∧
      (c = true → (s'.texInfo id).content = 0) ∧
      (∀ i, i ≠ id → s'.texInfo i = s.texInfo i) := by
  simp only [createTextureImpl] at hc
  split at hc
  · exact absurd hc (by simp)
  split at hc
  · exact absurd hc (by simp)
  cases hp : popKey (texPoolKeyOf w h stride d) s.texPool with
  | some p =>
    obtain ⟨pid, pool'⟩ := p
    rw [hp] at hc
    simp only [Option.some.injEq, Prod.mk.injEq] at hc
    obtain ⟨h1, h2, h3⟩ := hc
    subst h1
    subst h3
    refine ⟨?_, ?_, ?_⟩
    · cases c <;> simp
    · intro hcl
      subst hcl
      simp
    · intro i hi
      simp [hi]
  | none =>
    rw [hp] at hc
    simp only [Option.some.injEq, Prod.mk.injEq] at hc
    obtain ⟨h1, h2, h3⟩ := hc
    subst h1
    subst h3
    refine ⟨?_, ?_, ?_⟩
    · cases c <;> simp
    · intro hcl
      subst hcl
      simp
    · intro i hi
      simp [hi]

/-- Unfolding of a successful `create_buffer` call: device state is
untouched, the new handle is checked out, and the call either popped the
host pool (keeping the buffer's attributes) or allocated a fresh buffer
with exactly the requested size and direction. -/
theorem createBufferImpl_spec {size : Int} {write : Bool} {id : Nat} {alloc : Bool}
    {s s' : DevState}
    (hc : createBufferImpl size write s = some (id, alloc, s')) :
    s'.texPool = s.texPool ∧ s'.texOut = s.texOut ∧ s'.texInfo = s.texInfo ∧
      s'.bufOut = id :: s.bufOut ∧ 0 < size ∧
      ((alloc = false ∧ s'.nextId = s.nextId ∧ s'.bufInfo = s.bufInfo ∧
          popKey (⟨write, size.toNat⟩ : BufKey) s.bufPool = some (id, s'.bufPool)) ∨
        (alloc = true ∧ id = s.nextId ∧ s'.nextId = s.nextId + 1 ∧
          s'.bufPool = s.bufPool ∧
          popKey (⟨write, size.toNat⟩ : BufKey) s.bufPool = none ∧
          s'.bufInfo id = ⟨size.toNat, write, (s.bufInfo id).content⟩ ∧
          ∀ i, i ≠ id → s'.bufInfo i = s.bufInfo i)) := by
  simp only [createBufferImpl] at hc
  split at hc
  · exact absurd hc (by simp)
  next hsz =>
  cases hp : popKey (⟨write, size.toNat⟩ : BufKey) s.bufPool with
  | some p =>
    obtain ⟨pid, pool'⟩ := p
    rw [hp] at hc
    simp only [Option.some.injEq, Prod.mk.injEq] at hc
    obtain ⟨h1, h2, h3⟩ := hc
    subst h1
    subst h2
    subst h3
    exact ⟨rfl, rfl, rfl, rfl, by omega, Or.inl ⟨rfl, rfl, rfl, rfl⟩⟩
  | none =>
    rw [hp] at hc
    simp only [Option.some.injEq, Prod.mk.injEq] at hc
    obtain ⟨h1, h2, h3⟩ := hc
    subst h1
    subst h2
    subst h3
    refine ⟨rfl, rfl, rfl, rfl, by omega, Or.inr ⟨rfl, rfl, rfl, rfl, rfl, by simp, ?_⟩⟩
    intro i hi
    simp [hi]

end StateLemmas

section InvariantLemmas

theorem allIds_multiset (s : DevState) :
    (allIds s : Multiset Nat) =
      (s.texPool.map Prod.snd : Multiset Nat) + ↑(s.texOut.map Prod.fst) +
        ↑(s.bufPool.map Prod.snd) + ↑s.bufOut := by
  simp only [allIds, ← Multiset.coe_add]

theorem inv_init : Inv initState :=
  ⟨by simp [allIds, initState], by simp [allIds, initState], by simp [initState]⟩

theorem inv_transfer_eq {s s' : DevState}
    (hids : (allIds s' : Multiset Nat) = (allIds s : Multiset Nat))
    (hnext : s'.nextId = s.nextId)
    (hbc : ∀ e ∈ s'.bufPool, bufKeyOf (s'.bufInfo e.2) = e.1)
    (hinv : Inv s) : Inv s' := by
  obtain ⟨hnd, hbd, _⟩ := hinv
  refine ⟨?_, ?_, hbc⟩
  · have h1 : Multiset.Nodup (allIds s : Multiset Nat) := Multiset.coe_nodup.mpr hnd
    rw [← hids] at h1
    exact Multiset.coe_nodup.mp h1
  · intro id hid
    have h1 : id ∈ (allIds s : Multiset Nat) := by
      rw [← hids]
      exact Multiset.mem_coe.mpr hid
    rw [hnext]
    exact hbd id (Multiset.mem_coe.mp h1)

theorem inv_transfer_le {s s' : DevState}
    (hids : (allIds s' : Multiset Nat) ≤ (allIds s : Multiset Nat))
    (hnext : s'.nextId = s.nextId)
    (hbc : ∀ e ∈ s'.bufPool, bufKeyOf (s'.bufInfo e.2) = e.1)
    (hinv : Inv s) : Inv s' := by
  obtain ⟨hnd, hbd, _⟩ := hinv
  refine ⟨?_, ?_, hbc⟩
  · exact Multiset.coe_nodup.mp (Multiset.nodup_of_le hids (Multiset.coe_nodup.mpr hnd))
  · intro id hid
    have h1 : id ∈ (allIds s : Multiset Nat) :=
      Multiset.mem_of_le hids (Multiset.mem_coe.mpr hid)
    rw [hnext]
    exact hbd id (Multiset.mem_coe.mp h1)

theorem inv_transfer_fresh {s s' : DevState}
    (hids : (allIds s' : Multiset Nat) = s.nextId ::ₘ (allIds s : Multiset Nat))
    (hnext : s'.nextId = s.nextId + 1)
    (hbc : ∀ e ∈ s'.bufPool, bufKeyOf (s'.bufInfo e.2) = e.1)
    (hinv : Inv s) : Inv s' := by
  obtain ⟨hnd, hbd, _⟩ := hinv
  have hfresh : s.nextId ∉ (allIds s : Multiset Nat) := by
    intro hmem
    exact absurd (hbd _ (Multiset.mem_coe.mp hmem)) (lt_irrefl _)
  refine ⟨?_, ?_, hbc⟩
  · have h1 : Multiset.Nodup (allIds s' : Multiset Nat) := by
      rw [hids, Multiset.nodup_cons]
      exact ⟨hfresh, Multiset.coe_nodup.mpr hnd⟩
    exact Multiset.coe_nodup.mp h1
  · intro id hid
    have h1 : id ∈ (allIds s' : Multiset Nat) := Multiset.mem_coe.mpr hid
    rw [hids, Multiset.mem_cons] at h1
    rw [hnext]
    rcases h1 with h1 | h1
    · omega
    · exact Nat.lt_succ_of_lt (hbd id (Multiset.mem_coe.mp h1))

theorem bufKeyOf_content (b : BufInfo) (v : Nat) :
    bufKeyOf { b with content := v } = bufKeyOf b := rfl

theorem mem_allIds_bufPool {s : DevState} {e : BufKey × Nat} (he : e ∈ s.bufPool) :
    e.2 ∈ allIds s := by
  simp only [allIds, List.mem_append, List.mem_map]
  exact Or.inl (Or.inr ⟨e, he, rfl⟩)

theorem step_preserves_inv {s s' : DevState} (hstep : Step s s') (hinv : Inv s) : Inv s' := by
  obtain ⟨hnd, hbd, hbc⟩ := hinv
  cases hstep with
  | @createTex w h stride d c f id alloc _ _ hc =>
    obtain ⟨hbp, hbo, hbi, hto, hcase⟩ := createTextureImpl_spec hc
    rcases hcase with ⟨_, hnext, hpop⟩ | ⟨_, hid, hnext, htp, _⟩
    · -- pool hit: the ids are merely rearranged
      have hl : (s.texPool.map Prod.snd).Perm
          (List.map Prod.snd ((texPoolKeyOf w h stride d, id) :: s'.texPool)) :=
        (popKey_perm hpop).map Prod.snd
      have hm : (s.texPool.map Prod.snd : Multiset Nat) =
          id ::ₘ ↑(s'.texPool.map Prod.snd) := by
        rw [Multiset.cons_coe]
        exact Multiset.coe_eq_coe.mpr (by simpa using hl)
      refine inv_transfer_eq ?_ hnext ?_ ⟨hnd, hbd, hbc⟩
      · rw [allIds_multiset, allIds_multiset, hm, hto, hbp, hbo, List.map_cons,
          ← Multiset.cons_coe, ← Multiset.singleton_add, ← Multiset.singleton_add]
        abel
      · intro e he
        rw [hbi]
        exact hbc e (hbp ▸ he)
    · -- pool miss: one fresh id appears
      subst hid
      refine inv_transfer_fresh ?_ hnext ?_ ⟨hnd, hbd, hbc⟩
      · rw [allIds_multiset, allIds_multiset, hto, htp, hbp, hbo, List.map_cons,
          ← Multiset.cons_coe, ← Multiset.singleton_add, ← Multiset.singleton_add]
        abel
      · intro e he
        rw [hbi]
        exact hbc e (hbp ▸ he)
  | @createBuf size write id alloc _ _ hc =>
    obtain ⟨htp, hto, hti, hbo, _, hcase⟩ := createBufferImpl_spec hc
    rcases hcase with ⟨_, hnext, hbi, hpop⟩ | ⟨_, hid, hnext, hbp, _, _, hother⟩
    · -- pool hit
      have hl : (s.bufPool.map Prod.snd).Perm
          (List.map Prod.snd (({ write := write, size := size.toNat }, id) :: s'.bufPool)) :=
        (popKey_perm hpop).map Prod.snd
      have hm : (s.bufPool.map Prod.snd : Multiset Nat) =
          id ::ₘ ↑(s'.bufPool.map Prod.snd) := by
        rw [Multiset.cons_coe]
        exact Multiset.coe_eq_coe.mpr (by simpa using hl)
      refine inv_transfer_eq ?_ hnext ?_ ⟨hnd, hbd, hbc⟩
      · rw [allIds_multiset, allIds_multiset, hm, hto, htp, hbo,
          ← Multiset.cons_coe, ← Multiset.singleton_add, ← Multiset.singleton_add]
        abel
      · intro e he
        rw [hbi]
        exact hbc e (popKey_rest_subset hpop e he)
    · -- pool miss
      subst hid
      refine inv_transfer_fresh ?_ hnext ?_ ⟨hnd, hbd, hbc⟩
      · rw [allIds_multiset, allIds_multiset, hto, htp, hbp, hbo,
          ← Multiset.cons_coe, ← Multiset.singleton_add, ← Multiset.singleton_add]
        abel
      · intro e he
        rw [hbp] at he
        have hlt : e.2 < s.nextId := hbd e.2 (mem_allIds_bufPool he)
        rw [hother e.2 (by omega)]
        exact hbc e he
  | @releaseTex id k _ hmem =>
    -- the released id moves from texOut to the end of its captured queue
    have hl : s.texOut.Perm ((id, k) :: eraseOnce (id, k) s.texOut) :=
      perm_cons_eraseOnce hmem
    have hm : (s.texOut.map Prod.fst : Multiset Nat) =
        id ::ₘ ↑((eraseOnce (id, k) s.texOut).map Prod.fst) := by
      rw [Multiset.cons_coe]
      exact Multiset.coe_eq_coe.mpr (by simpa using hl.map Prod.fst)
    refine inv_transfer_eq ?_
      (show (releaseTexture id k s).nextId = s.nextId from rfl) ?_ ⟨hnd, hbd, hbc⟩
    · rw [allIds_multiset, allIds_multiset]
      show (((s.texPool ++ [(k, id)]).map Prod.snd : Multiset Nat) +
            ↑((eraseOnce (id, k) s.texOut).map Prod.fst) +
            ↑(s.bufPool.map Prod.snd) + ↑s.bufOut) =
          ↑(s.texPool.map Prod.snd) + ↑(s.texOut.map Prod.fst) +
            ↑(s.bufPool.map Prod.snd) + ↑s.bufOut
      rw [List.map_append, ← Multiset.coe_add, hm]
      simp only [List.map_cons, List.map_nil, Multiset.coe_singleton,
        ← Multiset.singleton_add]
      abel
    · intro e he
      exact hbc e he
  | @releaseBuf id _ hmem =>
    have hl : s.bufOut.Perm (id :: eraseOnce id s.bufOut) := perm_cons_eraseOnce hmem
    have hm : (s.bufOut : Multiset Nat) = id ::ₘ ↑(eraseOnce id s.bufOut) := by
      rw [Multiset.cons_coe]
      exact Multiset.coe_eq_coe.mpr hl
    refine inv_transfer_eq ?_
      (show (releaseBuffer id s).nextId = s.nextId from rfl) ?_ ⟨hnd, hbd, hbc⟩
    · rw [allIds_multiset, allIds_multiset]
      show (↑(s.texPool.map Prod.snd) + ↑(s.texOut.map Prod.fst) +
            ((s.bufPool ++ [(bufKeyOf (s.bufInfo id), id)]).map Prod.snd : Multiset Nat) +
            ↑(eraseOnce id s.bufOut)) =
          ↑(s.texPool.map Prod.snd) + ↑(s.texOut.map Prod.fst) +
            ↑(s.bufPool.map Prod.snd) + ↑s.bufOut
      rw [List.map_append, ← Multiset.coe_add, hm]
      simp only [List.map_cons, List.map_nil, Multiset.coe_singleton,
        ← Multiset.singleton_add]
      abel
    · intro e he
      have he2 : e ∈ s.bufPool ++ [(bufKeyOf (s.bufInfo id), id)] := he
      rw [List.mem_append] at he2
      rcases he2 with he2 | he2
      · exact hbc e he2
      · simp only [List.mem_singleton] at he2
        subst he2
        rfl
  | gcRun fails =>
    -- every entry surviving gc was already pooled
    have htex : (gcStep fails s).texPool.Sublist s.texPool := by
      unfold gcStep
      cases hce : clearEntries fails s.texPool with
      | mk aborted texRem =>
        cases aborted with
        | true =>
          simp only
          have hsub := clearEntries_rest_sublist fails s.texPool
          rw [hce] at hsub
          exact hsub
        | false =>
          cases hcb : clearEntries fails s.bufPool with
          | mk aborted2 bufRem =>
            cases aborted2 <;> simp [List.nil_sublist]
    have hbuf : (gcStep fails s).bufPool.Sublist s.bufPool := by
      unfold gcStep
      cases hce : clearEntries fails s.texPool with
      | mk aborted texRem =>
        cases aborted with
        | true => simp
        | false =>
          cases hcb : clearEntries fails s.bufPool with
          | mk aborted2 bufRem =>
            cases aborted2 with
            | true =>
              simp only
              have hsub := clearEntries_rest_sublist fails s.bufPool
              rw [hcb] at hsub
              exact hsub
            | false => simp [List.nil_sublist]
    have hrest : (gcStep fails s).texOut = s.texOut ∧ (gcStep fails s).bufOut = s.bufOut ∧
        (gcStep fails s).bufInfo = s.bufInfo ∧ (gcStep fails s).nextId = s.nextId := by
      unfold gcStep
      cases clearEntries fails s.texPool with
      | mk aborted texRem =>
        cases aborted with
        | true => exact ⟨rfl, rfl, rfl, rfl⟩
        | false =>
          cases clearEntries fails s.bufPool with
          | mk aborted2 bufRem =>
            cases aborted2 <;> exact ⟨rfl, rfl, rfl, rfl⟩
    obtain ⟨hto, hbo, hbi, hni⟩ := hrest
    refine inv_transfer_le ?_ hni ?_ ⟨hnd, hbd, hbc⟩
    · rw [allIds_multiset, allIds_multiset, hto, hbo]
      have h1 : ((gcStep fails s).texPool.map Prod.snd : Multiset Nat) ≤
          ↑(s.texPool.map Prod.snd) := Multiset.coe_le.mpr (htex.map Prod.snd).subperm
      have h2 : ((gcStep fails s).bufPool.map Prod.snd : Multiset Nat) ≤
          ↑(s.bufPool.map Prod.snd) := Multiset.coe_le.mpr (hbuf.map Prod.snd).subperm
      exact add_le_add (add_le_add (add_le_add h1 le_rfl) h2) le_rfl
    · intro e he
      rw [hbi]
      exact hbc e (hbuf.subset he)
  | writeTex id v =>
    refine inv_transfer_eq
      (show ((allIds (setTexContent id v s) : Multiset Nat)) = ↑(allIds s) from rfl)
      rfl ?_ ⟨hnd, hbd, hbc⟩
    intro e he
    exact hbc e he
  | writeBuf id v =>
    refine inv_transfer_eq
      (show ((allIds (setBufContent id v s) : Multiset Nat)) = ↑(allIds s) from rfl)
      rfl ?_ ⟨hnd, hbd, hbc⟩
    intro e he
    have he2 : e ∈ s.bufPool := he
    have hbieq : (setBufContent id v s).bufInfo e.2 =
        (if e.2 = id then { s.bufInfo e.2 with content := v } else s.bufInfo e.2) := rfl
    rw [hbieq]
    by_cases hei : e.2 = id
    · rw [if_pos hei, bufKeyOf_content]
      exact hbc e he2
    · rw [if_neg hei]
      exact hbc e he2

/-- Every state reachable from a fresh device satisfies the pool invariant. -/
theorem reachable_inv {s : DevState} (h : Reachable s) : Inv s := by
  induction h with
  | refl => exact inv_init
  | tail _ hstep ih => exact step_preserves_inv hstep ih

end InvariantLemmas

section MoreHelpers

theorem createTextureImpl_isSome (w h stride : Int) (d : BitDepth) (c : Bool) (f : Nat)
    (s : DevState) (hs1 : 0 < stride) (hs2 : stride < 5) (hw : 0 < w) (hh : 0 < h) :
    ∃ id alloc s', createTextureImpl w h stride d c f s = some (id, alloc, s') := by
  simp only [createTextureImpl]
  rw [if_neg (not_not_intro ⟨hs1, hs2⟩), if_neg (not_not_intro ⟨hw, hh⟩)]
  cases hp : popKey (texPoolKeyOf w h stride d) s.texPool with
  | some p =>
    obtain ⟨pid, pool'⟩ := p
    exact ⟨pid, false, _, rfl⟩
  | none => exact ⟨s.nextId, true, _, rfl⟩

theorem createBufferImpl_isSome (size : Int) (write : Bool) (s : DevState) (hsz : 0 < size) :
    ∃ id alloc s', createBufferImpl size write s = some (id, alloc, s') := by
  simp only [createBufferImpl]
  rw [if_neg (not_not_intro hsz)]
  cases hp : popKey (⟨write, size.toNat⟩ : BufKey) s.bufPool with
  | some p =>
    obtain ⟨pid, pool'⟩ := p
    exact ⟨pid, false, _, rfl⟩
  | none => exact ⟨s.nextId, true, _, rfl⟩

theorem pollAux_some_spec (sig : Nat → Bool) :
    ∀ fuel start k, pollAux sig start fuel = some k →
      start ≤ k ∧ sig k = true ∧ ∀ j, start ≤ j → j < k → sig j = false := by
  intro fuel
  induction fuel with
  | zero =>
    intro start k hk
    simp [pollAux] at hk
  | succ n ih =>
    intro start k hk
    simp only [pollAux] at hk
    by_cases hs : sig start = true
    · rw [if_pos hs] at hk
      have hk2 : start = k := by simpa using hk
      subst hk2
      exact ⟨le_refl _, hs, fun j hj1 hj2 => absurd hj1 (by omega)⟩
    · rw [if_neg hs] at hk
      obtain ⟨h1, h2, h3⟩ := ih (start + 1) k hk
      refine ⟨by omega, h2, ?_⟩
      intro j hj1 hj2
      rcases eq_or_lt_of_le hj1 with hj | hj
      · subst hj
        simpa using hs
      · exact h3 j (by omega) hj2

theorem pollAux_isSome (sig : Nat → Bool) :
    ∀ fuel start, (∃ j, start ≤ j ∧ j < start + fuel ∧ sig j = true) →
      (pollAux sig start fuel).isSome = true := by
  intro fuel
  induction fuel with
  | zero =>
    rintro start ⟨j, h1, h2, _⟩
    omega
  | succ n ih =>
    rintro start ⟨j, h1, h2, h3⟩
    simp only [pollAux]
    by_cases hs : sig start = true
    · rw [if_pos hs]
      rfl
    · rw [if_neg hs]
      refine ih (start + 1) ⟨j, ?_, by omega, h3⟩
      rcases eq_or_lt_of_le h1 with hj | hj
      · subst hj
        exact absurd h3 hs
      · omega

theorem pollAux_none (sig : Nat → Bool) (hnone : ∀ n, sig n = false) :
    ∀ fuel start, pollAux sig start fuel = none := by
  intro fuel
  induction fuel with
  | zero => intro start; rfl
  | succ n ih =>
    intro start
    simp [pollAux, hnone start, ih]

end MoreHelpers


section Claims

/-- C10: `create_texture` fails fast (`CASPAR_VERIFY`) whenever the stride
class is outside [1,4] or the width or height is non-positive; under the
hypotheses `1 ≤ stride ≤ 4`, `0 < width`, `0 < height` the assertion branch
is unreachable and the call proceeds to a result. -/
theorem c10_create_texture_preconditions
    (w h stride : Int) (d : BitDepth) (c : Bool) (f : Nat) (s : DevState) :
    ((stride ≤ 0 ∨ 5 ≤ stride ∨ w ≤ 0 ∨ h ≤ 0) →
      createTextureImpl w h stride d c f s = none) ∧
      (1 ≤ stride → stride ≤ 4 → 0 < w → 0 < h →
        (createTextureImpl w h stride d c f s).isSome = true) := by
  constructor
  · intro hbad
    simp only [createTextureImpl]
    by_cases h1 : stride > 0 ∧ stride < 5
    · rw [if_neg (not_not_intro h1)]
      rw [if_pos (by omega)]
    · rw [if_pos h1]
  · intro h1 h2 h3 h4
    obtain ⟨id, alloc, s', heq⟩ :=
      createTextureImpl_isSome w h stride d c f s (by omega) (by omega) h3 h4
    rw [heq]
    rfl

/-- C10 witness: stride 0 is rejected, stride 4 proceeds, at 16-by-16. -/
theorem c10_witness :
    createTextureImpl 16 16 0 BitDepth.bit8 true 0 initState = none ∧
      (createTextureImpl 16 16 4 BitDepth.bit8 true 0 initState).isSome = true :=
  ⟨(c10_create_texture_preconditions 16 16 0 BitDepth.bit8 true 0 initState).1
      (Or.inl (by norm_num)),
    (c10_create_texture_preconditions 16 16 4 BitDepth.bit8 true 0 initState).2
      (by norm_num) (by norm_num) (by norm_num) (by norm_num)⟩

/-- C9: the public `device::create_texture` always passes `clear = true` to
the internal path (first conjunct, definitional), so any texture it hands
out has zero content — also on a pool hit whose previous occupant left
non-zero content. -/
theorem c9_public_create_texture_clears
    (w h stride : Int) (d : BitDepth) (f id : Nat) (alloc : Bool) (s s' : DevState)
    (hc : deviceCreateTexture w h stride d f s = some (id, alloc, s')) :
    deviceCreateTexture w h stride d f s = createTextureImpl w h stride d true f s ∧
      (s'.texInfo id).content = 0 :=
  ⟨rfl, (createTextureImpl_content hc).2.1 rfl⟩

/-- C9 witness: the pooled 16-by-16 texture carries stale content 7; the
public create on the same shape is a pool hit and returns it cleared. -/
theorem c9_witness :
    (sTexB.texInfo 0).content = 7 ∧
      deviceCreateTexture 16 16 1 BitDepth.bit8 5 sTexB = some (0, false, sTexC) ∧
      (sTexC.texInfo 0).content = 0 :=
  ⟨by decide, rfl,
    (c9_public_create_texture_clears 16 16 1 BitDepth.bit8 5 0 false sTexB sTexC
        rfl).2⟩

/-- C3 counterexample: the claim quantifies over all positive widths and
heights, but the packed key truncates both dimensions to 16 bits: the
shapes (width 1, height 1) and (width 65537, height 1) are distinct yet map
to the same pool queue, and the pool then hands the 65537-wide texture out
for a 1-by-1 request (pool hit, stored width 65537). -/
theorem c3_counterexample :
    texPoolKeyOf 1 1 1 BitDepth.bit8 = texPoolKeyOf 65537 1 1 BitDepth.bit8 ∧
      (65537 : Int) ≠ 1 ∧
      (sWideB.texInfo 0).width = 65537 ∧
      createTextureImpl 1 1 1 BitDepth.bit8 false 0 sWideB = some (0, false, sWideC) ∧
      (sWideC.texInfo 0).width = 65537 :=
  ⟨by decide, by decide, by decide, rfl, by decide⟩

/-- C3 (amended): for widths and heights in [1, 65535] (and stride classes
in [1,4]), the full pool index (depth index, stride index, packed size key)
of two requests is equal iff the two shapes are equal, so no partial-fit or
wrong-shape reuse occurs in that range; beyond 16 bits the packed key
collides (see the counterexample). -/
theorem c3_exact_key_matching
    (w1 h1 w2 h2 stride1 stride2 : Int) (d1 d2 : BitDepth)
    (hw1 : 1 ≤ w1) (hw1b : w1 ≤ 65535) (hh1 : 1 ≤ h1) (hh1b : h1 ≤ 65535)
    (hw2 : 1 ≤ w2) (hw2b : w2 ≤ 65535) (hh2 : 1 ≤ h2) (hh2b : h2 ≤ 65535)
    (hs1 : 1 ≤ stride1) (hs1b : stride1 ≤ 4) (hs2 : 1 ≤ stride2) (hs2b : stride2 ≤ 4) :
    texPoolKeyOf w1 h1 stride1 d1 = texPoolKeyOf w2 h2 stride2 d2 ↔
      w1 = w2 ∧ h1 = h2 ∧ stride1 = stride2 ∧ d1 = d2 := by
  constructor
  · intro heq
    have hde := congrArg TexKey.depthIdx heq
    have hst := congrArg TexKey.strideIdx heq
    have hsz := congrArg TexKey.sizeKey heq
    simp only [texPoolKeyOf] at hde hst hsz
    have hkey := packSizeKey_inj (by omega) (by omega) (by omega) (by omega) hsz
    refine ⟨by omega, by omega, by omega, ?_⟩
    cases d1 <;> cases d2 <;> simp_all [depthPoolIndex]
  · rintro ⟨rfl, rfl, rfl, rfl⟩
    rfl

/-- C3 witness for the amended claim: within the 16-bit range distinct
shapes get distinct keys (16-by-16 versus 32-by-32). -/
theorem c3_witness :
    texPoolKeyOf 16 16 1 BitDepth.bit8 = texPoolKeyOf 32 32 1 BitDepth.bit8 ↔
      (16 : Int) = 32 ∧ (16 : Int) = 32 ∧ (1 : Int) = 1 ∧
        BitDepth.bit8 = BitDepth.bit8 :=
  c3_exact_key_matching 16 16 32 32 1 1 BitDepth.bit8 BitDepth.bit8
    (by norm_num) (by norm_num) (by norm_num) (by norm_num)
    (by norm_num) (by norm_num) (by norm_num) (by norm_num)
    (by norm_num) (by norm_num) (by norm_num) (by norm_num)

/-- C7: with no teardown errors, `gc()` exactly empties every pool queue
(device and host) and changes nothing else; every checked-out handle is
untouched, keeps its attributes, and on a later release populates the now
empty pool queue of its key. -/
theorem c7_gc_frame_effect (s : DevState) :
    gcStep (fun _ => false) s = { s with texPool := [], bufPool := [] } ∧
      (∀ id k, (id, k) ∈ s.texOut →
        (id, k) ∈ (gcStep (fun _ => false) s).texOut ∧
          (gcStep (fun _ => false) s).texInfo id = s.texInfo id ∧
          (releaseTexture id k (gcStep (fun _ => false) s)).texPool = [(k, id)]) ∧
      ∀ id, id ∈ s.bufOut →
        id ∈ (gcStep (fun _ => false) s).bufOut ∧
          (gcStep (fun _ => false) s).bufInfo id = s.bufInfo id ∧
          (releaseBuffer id (gcStep (fun _ => false) s)).bufPool =
            [(bufKeyOf (s.bufInfo id), id)] := by
  have hg : gcStep (fun _ => false) s = { s with texPool := [], bufPool := [] } := by
    unfold gcStep
    rw [clearEntries_noFail, clearEntries_noFail]
  refine ⟨hg, ?_, ?_⟩
  · intro id k hmem
    rw [hg]
    exact ⟨hmem, rfl, by simp [releaseTexture]⟩
  · intro id hmem
    rw [hg]
    exact ⟨hmem, rfl, by simp [releaseBuffer]⟩

/-- C7 witness: gc on the state holding one checked-out 16-by-16 texture
(id 0, stale content 7). -/
theorem c7_witness :
    gcStep (fun _ => false) sTexA = { sTexA with texPool := [], bufPool := [] } ∧
      ((0, key16) ∈ (gcStep (fun _ => false) sTexA).texOut ∧
        (gcStep (fun _ => false) sTexA).texInfo 0 = sTexA.texInfo 0 ∧
        (releaseTexture 0 key16 (gcStep (fun _ => false) sTexA)).texPool =
          [(key16, 0)]) :=
  ⟨(c7_gc_frame_effect sTexA).1,
    (c7_gc_frame_effect sTexA).2.1 0 key16 (by decide)⟩

/-- C6 counterexample: `gc()` wraps the whole clearing loop in one
`try`/`catch`, so when tearing down the first pooled 2-by-2 texture throws,
the second entry of the same queue — which does not throw — is left pooled
instead of being cleared: error handling is per-pass, not per-entry. -/
theorem c6_counterexample :
    sGcC.texPool = [(key2, 0), (key2, 1)] ∧
      gcFails 0 = true ∧ gcFails 1 = false ∧
      (gcStep gcFails sGcC).texPool = [(key2, 1)] ∧
      (gcStep gcFails sGcC).texPool ≠ [] :=
  ⟨by decide, by decide, by decide, by decide, by decide⟩

/-- C6 (amended): the error raised while tearing down a pool entry is
caught (and logged) once for the whole clearing pass, so `gc()` itself
completes; but clearing stops at the failing entry: the entries after it —
including every host-pool entry when the failure is in a device pool — stay
in their queues instead of being cleared. -/
theorem c6_gc_error_containment (fails : Nat → Bool) (s : DevState) :
    (∀ texRem, clearEntries fails s.texPool = (true, texRem) →
      gcStep fails s = { s with texPool := texRem }) ∧
      (∀ bufRem, (clearEntries fails s.texPool).1 = false →
        clearEntries fails s.bufPool = (true, bufRem) →
        gcStep fails s = { s with texPool := [], bufPool := bufRem }) ∧
      ((clearEntries fails s.texPool).1 = false →
        (clearEntries fails s.bufPool).1 = false →
        gcStep fails s = { s with texPool := [], bufPool := [] }) := by
  refine ⟨?_, ?_, ?_⟩
  · intro texRem htex
    unfold gcStep
    rw [htex]
  · intro bufRem htex hbuf
    unfold gcStep
    rw [hbuf]
    cases hce : clearEntries fails s.texPool with
    | mk aborted texRem2 =>
      rw [hce] at htex
      cases aborted with
      | true => exact absurd htex (by simp)
      | false => rfl
  · intro htex hbuf
    unfold gcStep
    cases hce : clearEntries fails s.texPool with
    | mk aborted texRem2 =>
      rw [hce] at htex
      cases aborted with
      | true => exact absurd htex (by simp)
      | false =>
        cases hcb : clearEntries fails s.bufPool with
        | mk aborted2 bufRem2 =>
          rw [hcb] at hbuf
          cases aborted2 with
          | true => exact absurd hbuf (by simp)
          | false => rfl

/-- C6 witness for the amended claim: on the two-entry pool with the first
teardown throwing, gc stops after the failing entry and leaves the second
one pooled. -/
theorem c6_witness :
    gcStep gcFails sGcC = { sGcC with texPool := [(key2, 1)] } :=
  (c6_gc_error_containment gcFails sGcC).1 [(key2, 1)] (by decide)

/-- Shared helper: a successful `create_buffer` hands out a buffer whose
(write, size) attributes match the request exactly — on a miss by
construction, on a hit because every pooled entry sits in the queue of its
own key (invariant). -/
theorem createBufferImpl_key {size : Int} {wr : Bool} {id : Nat} {alloc : Bool}
    {s s' : DevState} (hinv : Inv s)
    (hc : createBufferImpl size wr s = some (id, alloc, s')) :
    bufKeyOf (s'.bufInfo id) = ⟨wr, size.toNat⟩ := by
  obtain ⟨_, _, _, _, _, hcase⟩ := createBufferImpl_spec hc
  rcases hcase with ⟨_, _, hbi, hpop⟩ | ⟨_, _, _, _, _, hbiid, _⟩
  · rw [hbi]
    exact hinv.2.2 _ (popKey_mem hpop)
  · rw [hbiid]
    rfl

/-- C2: in every reachable state no resource id occurs twice across the
pool queues and the checked-out handles (so a resource is never both
checked out and idle, never in two queues, and never checked out to two
owners), and any two checked-out texture handles — in particular two with
the same shape key — are backed by distinct underlying resources. -/
theorem c2_exclusive_ownership (s : DevState) (hr : Reachable s) :
    (allIds s).Nodup ∧
      s.texOut.Pairwise (fun a b => a.1 ≠ b.1) ∧
      s.bufOut.Nodup := by
  obtain ⟨hnd, _, _⟩ := reachable_inv hr
  refine ⟨hnd, ?_, ?_⟩
  · have hsub : (s.texOut.map Prod.fst).Sublist (allIds s) :=
      (((List.sublist_append_right (s.texPool.map Prod.snd)
              (s.texOut.map Prod.fst)).trans
          (List.sublist_append_left _ (s.bufPool.map Prod.snd))).trans
        (List.sublist_append_left _ s.bufOut))
    exact List.pairwise_map.mp (hsub.nodup hnd)
  · have hsub : s.bufOut.Sublist (allIds s) :=
      List.sublist_append_right _ s.bufOut
    exact hsub.nodup hnd

/-- C2 witness: the invariant applied to the initial (trivially reachable)
state. -/
theorem c2_witness :
    (allIds initState).Nodup ∧
      initState.texOut.Pairwise (fun a b => a.1 ≠ b.1) ∧
      initState.bufOut.Nodup :=
  c2_exclusive_ownership initState Relation.ReflTransGen.refl

/-- C5: releasing a pooled texture handle pushes the texture to the queue
captured at creation/acquisition, regardless of the texture's current
attribute map; releasing a buffer handle pushes to the queue recomputed
from the buffer's write flag and size — attributes no transition ever
changes after allocation, and which a successful acquisition leaves equal
to the request's key — so both handle kinds return their resource to the
queue of the original shape key. -/
theorem c5_release_uses_original_key :
    (∀ (s : DevState) (id : Nat) (k : TexKey) (g : Nat → TexInfo),
      (releaseTexture id k { s with texInfo := g }).texPool = s.texPool ++ [(k, id)]) ∧
      (∀ (s : DevState) (id : Nat),
        (releaseBuffer id s).bufPool = s.bufPool ++ [(bufKeyOf (s.bufInfo id), id)]) ∧
      (∀ s s' : DevState, Step s s' → ∀ id, id < s.nextId →
        (s'.bufInfo id).size = (s.bufInfo id).size ∧
          (s'.bufInfo id).write = (s.bufInfo id).write) ∧
      ∀ (size : Int) (wr : Bool) (id : Nat) (alloc : Bool) (s s' : DevState),
        Inv s → createBufferImpl size wr s = some (id, alloc, s') →
        bufKeyOf (s'.bufInfo id) = ⟨wr, size.toNat⟩ := by
  refine ⟨fun s id k g => rfl, fun s id => rfl, ?_,
    fun size wr id alloc s s' hinv hc => createBufferImpl_key hinv hc⟩
  intro s s' hstep id hid
  cases hstep with
  | createTex hc =>
    rw [(createTextureImpl_spec hc).2.2.1]
    exact ⟨rfl, rfl⟩
  | createBuf hc =>
    obtain ⟨_, _, _, _, _, hcase⟩ := createBufferImpl_spec hc
    rcases hcase with ⟨_, _, hbi, _⟩ | ⟨_, hid2, _, _, _, _, hother⟩
    · rw [hbi]
      exact ⟨rfl, rfl⟩
    · rw [hother id (by omega)]
      exact ⟨rfl, rfl⟩
  | releaseTex hmem => exact ⟨rfl, rfl⟩
  | releaseBuf hmem => exact ⟨rfl, rfl⟩
  | gcRun fails =>
    have hgb : (gcStep fails s).bufInfo = s.bufInfo := by
      unfold gcStep
      cases clearEntries fails s.texPool with
      | mk a r =>
        cases a with
        | true => rfl
        | false =>
          cases clearEntries fails s.bufPool with
          | mk a2 r2 => cases a2 <;> rfl
    rw [hgb]
    exact ⟨rfl, rfl⟩
  | writeTex i v => exact ⟨rfl, rfl⟩
  | writeBuf i v =>
    have hbieq : (setBufContent i v s).bufInfo id =
        (if id = i then { s.bufInfo id with content := v } else s.bufInfo id) := rfl
    rw [hbieq]
    by_cases hii : id = i
    · rw [if_pos hii]
      exact ⟨rfl, rfl⟩
    · rw [if_neg hii]
      exact ⟨rfl, rfl⟩

/-- C5 witness: a texture release with an arbitrary attribute map still
pushes to the captured key; the 1024-byte write buffer is released to and
acquired from the queue of its own (write, size). -/
theorem c5_witness :
    (releaseTexture 3 key16 { initState with texInfo := fun _ => default }).texPool =
        initState.texPool ++ [(key16, 3)] ∧
      (releaseBuffer 0 sBuf1).bufPool =
        sBuf1.bufPool ++ [(bufKeyOf (sBuf1.bufInfo 0), 0)] ∧
      ((setBufContent 0 5 sBuf1).bufInfo 0).size = (sBuf1.bufInfo 0).size ∧
      ((setBufContent 0 5 sBuf1).bufInfo 0).write = (sBuf1.bufInfo 0).write ∧
      bufKeyOf (sBuf1.bufInfo 0) = ⟨true, (1024 : Int).toNat⟩ :=
  ⟨c5_release_uses_original_key.1 initState 3 key16 (fun _ => default),
    c5_release_uses_original_key.2.1 sBuf1 0,
    (c5_release_uses_original_key.2.2.1 sBuf1 (setBufContent 0 5 sBuf1)
        (Step.writeBuf 0 5) 0 (by decide)).1,
    (c5_release_uses_original_key.2.2.1 sBuf1 (setBufContent 0 5 sBuf1)
        (Step.writeBuf 0 5) 0 (by decide)).2,
    c5_release_uses_original_key.2.2.2 1024 true 0 true initState sBuf1 inv_init rfl⟩

/-- C8: on upload, a source view carrying a typed storage handle to a
pooled buffer is reused directly — the event trace contains no buffer
acquisition and no memcpy, only the texture acquisition (clear = false)
followed by the buffer-to-image copy; otherwise a write-direction staging
buffer of exactly the source's byte size is acquired, the source bytes are
copied into it, and only then is the texture acquired and the
buffer-to-image copy issued. -/
theorem c8_upload_staging_path
    (src : SourceView) (w h stride : Int) (d : BitDepth) (f : Nat) (s : DevState) :
    (∀ b, src.storage = some b →
      ∀ bu tex ev s', copyAsyncUpload src w h stride d f s = some (bu, tex, ev, s') →
        bu = b ∧
          ev = [UpEvent.createTexture w h stride false, UpEvent.copyBufferToImage b tex]) ∧
      (src.storage = none → Inv s →
        ∀ bu tex ev s', copyAsyncUpload src w h stride d f s = some (bu, tex, ev, s') →
          ev = [UpEvent.createBuffer src.size true, UpEvent.memcpy src.size.toNat,
              UpEvent.createTexture w h stride false, UpEvent.copyBufferToImage bu tex] ∧
            (s'.bufInfo bu).size = src.size.toNat ∧
            (s'.bufInfo bu).write = true ∧
            (s'.bufInfo bu).content = src.content) := by
  constructor
  · intro b hb bu tex ev s' hcall
    simp only [copyAsyncUpload, hb] at hcall
    cases hct : createTextureImpl w h stride d false f s with
    | none =>
      simp only [hct] at hcall
      exact absurd hcall (by simp)
    | some p =>
      obtain ⟨t, al, s1⟩ := p
      simp only [hct, Option.some.injEq, Prod.mk.injEq] at hcall
      obtain ⟨h1, h2, h3, h4⟩ := hcall
      subst h1
      subst h2
      subst h3
      exact ⟨rfl, rfl⟩
  · intro hnone hinv bu tex ev s' hcall
    simp only [copyAsyncUpload, hnone] at hcall
    cases hcb : createBufferImpl src.size true s with
    | none =>
      simp only [hcb] at hcall
      exact absurd hcall (by simp)
    | some p =>
      obtain ⟨b, al, s1⟩ := p
      simp only [hcb] at hcall
      cases hct : createTextureImpl w h stride d false f (setBufContent b src.content s1) with
      | none =>
        simp only [hct] at hcall
        exact absurd hcall (by simp)
      | some q =>
        obtain ⟨t, al2, s3⟩ := q
        simp only [hct, Option.some.injEq, Prod.mk.injEq] at hcall
        obtain ⟨h1, h2, h3, h4⟩ := hcall
        subst h1
        subst h2
        subst h3
        subst h4
        have hkey : bufKeyOf (s1.bufInfo b) = ⟨true, src.size.toNat⟩ :=
          createBufferImpl_key hinv hcb
        have hsize : (s1.bufInfo b).size = src.size.toNat := congrArg BufKey.size hkey
        have hwr : (s1.bufInfo b).write = true := congrArg BufKey.write hkey
        have hb3 : s3.bufInfo = (setBufContent b src.content s1).bufInfo :=
          (createTextureImpl_spec hct).2.2.1
        have hfinal : (setTexContent t ((s3.bufInfo b).content) s3).bufInfo b =
            { s1.bufInfo b with content := src.content } := by
          show s3.bufInfo b = _
          rw [hb3]
          simp [setBufContent]
        rw [hfinal]
        exact ⟨rfl, hsize, hwr, rfl⟩

/-- C8 witness: the storage-backed source is uploaded with no staging
acquisition and no memcpy; the plain source gets a fresh 1024-byte write
staging buffer carrying its bytes. -/
theorem c8_witness :
    copyAsyncUpload upSrcFast 16 16 1 BitDepth.bit8 3 initState =
        some (5, 0,
          [UpEvent.createTexture 16 16 1 false, UpEvent.copyBufferToImage 5 0], sUpFast) ∧
      ((sUpSlow.bufInfo 0).size = (1024 : Int).toNat ∧
        (sUpSlow.bufInfo 0).write = true ∧
        (sUpSlow.bufInfo 0).content = 42) :=
  ⟨rfl,
    ((c8_upload_staging_path upSrcSlow 16 16 1 BitDepth.bit8 3 initState).2 rfl inv_init
        0 1
        [UpEvent.createBuffer 1024 true, UpEvent.memcpy (1024 : Int).toNat,
          UpEvent.createTexture 16 16 1 false, UpEvent.copyBufferToImage 0 1]
        sUpSlow rfl).2⟩

/-- C4: the download poll loop tests the fence only after each 2 ms timer
wait (the trace of a run breaking on check `k` is `k + 1` repetitions of
arm-timer / suspend / test, then the fence destruction); it breaks exactly
at the first signaled test; it terminates iff the fence eventually signals
— with no timeout, an unsignaled fence is polled forever; and on success
the returned view is backed by the staging buffer, whose ownership stays
with the view (still checked out), with the view size equal to the
buffer's size. -/
theorem c4_download_fence_poll
    (signaled : Nat → Bool) (srcSize : Int) (srcContent : Nat) (s : DevState) :
    (∀ fuel k, pollAux signaled 0 fuel = some k →
      signaled k = true ∧ (∀ j, j < k → signaled j = false) ∧
        pollTrace k =
          (List.replicate (k + 1)
              [PollEvent.armTimer 2, PollEvent.suspend, PollEvent.checkFence]).flatten ++
            [PollEvent.destroyFence]) ∧
      ((∃ n, signaled n = true) ↔ ∃ fuel k, pollAux signaled 0 fuel = some k) ∧
      ((∀ n, signaled n = false) → ∀ fuel, pollAux signaled 0 fuel = none) ∧
      (0 < srcSize → ∀ fuel k, pollAux signaled 0 fuel = some k →
        ∃ res s', copyAsyncDownload signaled fuel srcSize srcContent s = some (some res, s') ∧
          res.trace = pollTrace k ∧ res.iterations = k ∧
          res.bufId ∈ s'.bufOut ∧ res.size = (s'.bufInfo res.bufId).size ∧
          (s'.bufInfo res.bufId).content = srcContent) := by
  refine ⟨?_, ?_, ?_, ?_⟩
  · intro fuel k hk
    obtain ⟨_, h2, h3⟩ := pollAux_some_spec signaled fuel 0 k hk
    exact ⟨h2, fun j hj => h3 j (Nat.zero_le j) hj, rfl⟩
  · constructor
    · rintro ⟨n, hn⟩
      have hsome := pollAux_isSome signaled (n + 1) 0 ⟨n, Nat.zero_le n, by omega, hn⟩
      obtain ⟨k, hk⟩ := Option.isSome_iff_exists.mp hsome
      exact ⟨n + 1, k, hk⟩
    · rintro ⟨fuel, k, hk⟩
      exact ⟨k, (pollAux_some_spec signaled fuel 0 k hk).2.1⟩
  · intro hnone fuel
    exact pollAux_none signaled hnone fuel 0
  · intro hsz fuel k hk
    obtain ⟨b, alloc, s1, hcb⟩ := createBufferImpl_isSome srcSize false s hsz
    refine ⟨⟨b, ((setBufContent b srcContent s1).bufInfo b).size, k, pollTrace k⟩,
      setBufContent b srcContent s1, ?_, rfl, rfl, ?_, rfl, ?_⟩
    · simp only [copyAsyncDownload, hcb, hk]
    · have hbo : s1.bufOut = b :: s.bufOut := (createBufferImpl_spec hcb).2.2.2.1
      show b ∈ s1.bufOut
      rw [hbo]
      exact List.mem_cons_self _ _
    · show ((setBufContent b srcContent s1).bufInfo b).content = srcContent
      simp [setBufContent]

/-- C4 witness: a fence that signals on the second test is detected on poll
iteration 1 and the download completes with the view over the staging
buffer. -/
theorem c4_witness :
    pollAux dlSig 0 5 = some 1 ∧
      ∃ res s', copyAsyncDownload dlSig 5 256 77 initState = some (some res, s') ∧
        res.trace = pollTrace 1 ∧ res.iterations = 1 ∧
        res.bufId ∈ s'.bufOut ∧ res.size = (s'.bufInfo res.bufId).size ∧
        (s'.bufInfo res.bufId).content = 77 :=
  ⟨by decide,
    (c4_download_fence_poll dlSig 256 77 initState).2.2.2 (by norm_num) 5 1 (by decide)⟩

/-- C1: from a state whose queue for the requested key is empty (the
scenario's precondition — the first acquisition must be a miss), acquiring,
releasing the handle, and acquiring the same key again returns the same
resource id with the allocation flag false (pool hit, no allocation);
acquiring twice with no release allocates twice (both flags true) and the
two ids are distinct.  Both for textures and for buffers. -/
theorem c1_pool_reuse_roundtrip
    (w h stride : Int) (d : BitDepth) (c c2 : Bool) (f f2 : Nat) (s : DevState)
    (size : Int) (wr : Bool) (sb : DevState)
    (hs1 : 0 < stride) (hs2 : stride < 5) (hw : 0 < w) (hh : 0 < h)
    (hempty : queueOf (texPoolKeyOf w h stride d) s.texPool = [])
    (hsz : 0 < size)
    (hbempty : queueOf (⟨wr, size.toNat⟩ : BufKey) sb.bufPool = []) :
    (∃ s1 s2,
      createTextureImpl w h stride d c f s = some (s.nextId, true, s1) ∧
        createTextureImpl w h stride d c2 f2
            (releaseTexture s.nextId (texPoolKeyOf w h stride d) s1) =
          some (s.nextId, false, s2)) ∧
      (∃ s1 s2,
        createTextureImpl w h stride d c f s = some (s.nextId, true, s1) ∧
          createTextureImpl w h stride d c2 f2 s1 = some (s.nextId + 1, true, s2) ∧
          s.nextId ≠ s.nextId + 1) ∧
      (∃ t1 t2,
        createBufferImpl size wr sb = some (sb.nextId, true, t1) ∧
          createBufferImpl size wr (releaseBuffer sb.nextId t1) =
            some (sb.nextId, false, t2)) ∧
      ∃ t1 t2,
        createBufferImpl size wr sb = some (sb.nextId, true, t1) ∧
          createBufferImpl size wr t1 = some (sb.nextId + 1, true, t2) ∧
          sb.nextId ≠ sb.nextId + 1 := by
  have hkey_empty : popKey (texPoolKeyOf w h stride d) s.texPool = none :=
    popKey_eq_none_iff.mpr hempty
  have hbkey_empty : popKey (⟨wr, size.toNat⟩ : BufKey) sb.bufPool = none :=
    popKey_eq_none_iff.mpr hbempty
  obtain ⟨id1, alloc1, s1, h1⟩ := createTextureImpl_isSome w h stride d c f s hs1 hs2 hw hh
  obtain ⟨_, _, _, _, hcase1⟩ := createTextureImpl_spec h1
  rcases hcase1 with ⟨_, _, hpop1⟩ | ⟨halloc1, hid1, hnext1, htp1, _⟩
  · rw [hkey_empty] at hpop1
    exact absurd hpop1 (by simp)
  subst halloc1
  subst hid1
  obtain ⟨bid1, balloc1, t1, hb1⟩ := createBufferImpl_isSome size wr sb hsz
  obtain ⟨_, _, _, _, _, hbcase1⟩ := createBufferImpl_spec hb1
  rcases hbcase1 with ⟨_, _, _, hbpop1⟩ | ⟨hballoc1, hbid1, hbnext1, hbtp1, _, hbinfo1, _⟩
  · rw [hbkey_empty] at hbpop1
    exact absurd hbpop1 (by simp)
  subst hballoc1
  subst hbid1
  refine ⟨?_, ?_, ?_, ?_⟩
  · -- texture acquire, release, acquire
    have hpool1 : (releaseTexture s.nextId (texPoolKeyOf w h stride d) s1).texPool =
        s.texPool ++ [(texPoolKeyOf w h stride d, s.nextId)] := by
      show s1.texPool ++ _ = _
      rw [htp1]
    have hpop2 : popKey (texPoolKeyOf w h stride d)
        (releaseTexture s.nextId (texPoolKeyOf w h stride d) s1).texPool =
        some (s.nextId, s.texPool) := by
      rw [hpool1]
      exact popKey_append_single hkey_empty
    obtain ⟨id2, alloc2, s2, h2⟩ := createTextureImpl_isSome w h stride d c2 f2
      (releaseTexture s.nextId (texPoolKeyOf w h stride d) s1) hs1 hs2 hw hh
    obtain ⟨_, _, _, _, hcase2⟩ := createTextureImpl_spec h2
    rcases hcase2 with ⟨halloc2, _, hpop2a⟩ | ⟨_, _, _, _, hpopnone⟩
    · have hpair : id2 = s.nextId ∧ s2.texPool = s.texPool := by
        have heq := hpop2a.symm.trans hpop2
        simpa using heq
      obtain ⟨hid2, _⟩ := hpair
      subst hid2
      subst halloc2
      exact ⟨s1, s2, h1, h2⟩
    · rw [hpop2] at hpopnone
      exact absurd hpopnone (by simp)
  · -- texture double acquire
    have hpop1b : popKey (texPoolKeyOf w h stride d) s1.texPool = none := by
      rw [htp1]
      exact hkey_empty
    obtain ⟨id2, alloc2, s2, h2⟩ :=
      createTextureImpl_isSome w h stride d c2 f2 s1 hs1 hs2 hw hh
    obtain ⟨_, _, _, _, hcase2⟩ := createTextureImpl_spec h2
    rcases hcase2 with ⟨_, _, hpop2a⟩ | ⟨halloc2, hid2, _, _, _⟩
    · rw [hpop1b] at hpop2a
      exact absurd hpop2a (by simp)
    · subst halloc2
      subst hid2
      rw [hnext1] at h2
      exact ⟨s1, s2, h1, h2, by omega⟩
  · -- buffer acquire, release, acquire
    have hbkey1 : bufKeyOf (t1.bufInfo sb.nextId) = ⟨wr, size.toNat⟩ := by
      rw [hbinfo1]
      rfl
    have hbpool1 : (releaseBuffer sb.nextId t1).bufPool =
        sb.bufPool ++ [((⟨wr, size.toNat⟩ : BufKey), sb.nextId)] := by
      show t1.bufPool ++ [(bufKeyOf (t1.bufInfo sb.nextId), sb.nextId)] = _
      rw [hbtp1, hbkey1]
    have hbpop2 : popKey (⟨wr, size.toNat⟩ : BufKey) (releaseBuffer sb.nextId t1).bufPool =
        some (sb.nextId, sb.bufPool) := by
      rw [hbpool1]
      exact popKey_append_single hbkey_empty
    obtain ⟨id2, alloc2, t2, hb2⟩ :=
      createBufferImpl_isSome size wr (releaseBuffer sb.nextId t1) hsz
    obtain ⟨_, _, _, _, _, hbcase2⟩ := createBufferImpl_spec hb2
    rcases hbcase2 with ⟨hballoc2, _, _, hbpop2a⟩ | ⟨_, _, _, _, hbpopnone, _, _⟩
    · have hpair : id2 = sb.nextId ∧ t2.bufPool = sb.bufPool := by
        have heq := hbpop2a.symm.trans hbpop2
        simpa using heq
      obtain ⟨hid2, _⟩ := hpair
      subst hid2
      subst hballoc2
      exact ⟨t1, t2, hb1, hb2⟩
    · rw [hbpop2] at hbpopnone
      exact absurd hbpopnone (by simp)
  · -- buffer double acquire
    have hbpop1b : popKey (⟨wr, size.toNat⟩ : BufKey) t1.bufPool = none := by
      rw [hbtp1]
      exact hbkey_empty
    obtain ⟨id2, alloc2, t2, hb2⟩ := createBufferImpl_isSome size wr t1 hsz
    obtain ⟨_, _, _, _, _, hbcase2⟩ := createBufferImpl_spec hb2
    rcases hbcase2 with ⟨_, _, _, hbpop2a⟩ | ⟨hballoc2, hbid2, _, _, _, _, _⟩
    · rw [hbpop1b] at hbpop2a
      exact absurd hbpop2a (by simp)
    · subst hballoc2
      subst hbid2
      rw [hbnext1] at hb2
      exact ⟨t1, t2, hb1, hb2, by omega⟩

/-- C1 witness: the 16-by-16 texture scenario and the spec's
`create_buffer(1024, write)` scenario, from the fresh device state. -/
theorem c1_witness :
    (∃ s1 s2,
      createTextureImpl 16 16 1 BitDepth.bit8 true 0 initState = some (0, true, s1) ∧
        createTextureImpl 16 16 1 BitDepth.bit8 true 0
            (releaseTexture 0 (texPoolKeyOf 16 16 1 BitDepth.bit8) s1) =
          some (0, false, s2)) ∧
      (∃ s1 s2,
        createTextureImpl 16 16 1 BitDepth.bit8 true 0 initState = some (0, true, s1) ∧
          createTextureImpl 16 16 1 BitDepth.bit8 true 0 s1 = some (1, true, s2) ∧
          (0 : Nat) ≠ 1) ∧
      (∃ t1 t2,
        createBufferImpl 1024 true initState = some (0, true, t1) ∧
          createBufferImpl 1024 true (releaseBuffer 0 t1) = some (0, false, t2)) ∧
      ∃ t1 t2,
        createBufferImpl 1024 true initState = some (0, true, t1) ∧
          createBufferImpl 1024 true t1 = some (1, true, t2) ∧
          (0 : Nat) ≠ 1 :=
  c1_pool_reuse_roundtrip 16 16 1 BitDepth.bit8 true true 0 0 initState 1024 true initState
    (by norm_num) (by norm_num) (by norm_num) (by norm_num) rfl (by norm_num) rfl

end Claims

end CasparVulkan
